import Mathlib

/-!
Verification of the payment-flow-cli repository: a shallow embedding of the
domain layer (`internal/domain`), the command processor
(`internal/service/processor.go`), the in-memory store keyed by payment id
(`internal/store/memory.go`), the command-line parser
(`internal/parser/parser.go`) and the threshold configuration from the
program entry point, together with theorems checking the specification's
claims against this embedding.

Conventions of the embedding:
- Go `*big.Rat` is modelled as Lean `ℚ` (both are arbitrary-precision
  normalized rationals); a possibly-nil `*big.Rat` is `Option ℚ`.
- Go timestamps (`time.Time`) are modelled as an abstract clock value of
  type `Nat` passed explicitly to every operation that reads the clock.
- Go's in-place mutation is modelled by explicit state passing: a handler
  takes the store and returns the new store together with its
  `result, error` pair (`Except`).
- Rational arithmetic inside executable definitions is written with the
  kernel-reducible primitives `mkRat`, `Rat.num`, `Rat.den`, `Rat.floor`
  and the decidable order on `ℚ`, so every definition evaluates by `decide`.
-/

set_option maxRecDepth 4096

deriving instance DecidableEq for Except

namespace PaymentFlow

/-- Binary exponentiation with explicit fuel, so that kernel evaluation of
large powers such as `2 ^ 1074` stays shallow. -/
def powAux (b : Nat) : Nat → Nat → Nat
  | 0, _ => 1
  | _, 0 => 1
  | fuel + 1, n =>
      let h := powAux b fuel (n / 2)
      if n % 2 = 0 then h * h else h * h * b

/-- `b ^ n` by binary exponentiation. -/
def natPow (b n : Nat) : Nat := powAux b n n

theorem powAux_eq (b : Nat) :
    ∀ fuel n, n ≤ fuel → powAux b fuel n = b ^ n := by
  intro fuel
  induction fuel with
  | zero => intro n hn; interval_cases n; simp [powAux]
  | succ fuel ih =>
      intro n hn
      match n with
      | 0 => simp [powAux]
      | m + 1 =>
          have hdiv : (m + 1) / 2 ≤ fuel := by
            have h2 : (m + 1) / 2 < m + 1 := Nat.div_lt_self (Nat.succ_pos m) one_lt_two
            omega
          have hrec := ih ((m + 1) / 2) hdiv
          have harm : powAux b (fuel + 1) (m + 1) =
              if (m + 1) % 2 = 0 then
                powAux b fuel ((m + 1) / 2) * powAux b fuel ((m + 1) / 2)
              else powAux b fuel ((m + 1) / 2) * powAux b fuel ((m + 1) / 2) * b := rfl
          rw [harm, hrec]
          by_cases hpar : (m + 1) % 2 = 0
          · rw [if_pos hpar, ← pow_add]
            congr 1
            omega
          · rw [if_neg hpar, ← pow_add, ← pow_succ]
            congr 1
            omega

theorem natPow_eq (b n : Nat) : natPow b n = b ^ n :=
  powAux_eq b n n (Nat.le_refl n)

/-! ## Transition table (`internal/domain/transitions.go`) -/

/-- `AllowedTransitions` from `transitions.go`: the Go map from a current
state to the slice of valid target states; a lookup of a key that is not in
the map reports absence, modelled by `none`. -/
def AllowedTransitions (s : String) : Option (List String) :=
  if s = "INITIATED" then some ["AUTHORIZED", "VOIDED", "FAILED"]
  else if s = "AUTHORIZED" then some ["PRE_SETTLEMENT_REVIEW", "CAPTURED", "VOIDED"]
  else if s = "PRE_SETTLEMENT_REVIEW" then some ["CAPTURED"]
  else if s = "CAPTURED" then some ["SETTLED", "REFUNDED"]
  else if s = "SETTLED" then some ["SETTLED"]
  else if s = "VOIDED" then some []
  else if s = "REFUNDED" then some []
  else if s = "FAILED" then some []
  else none

/-- `CanTransition` from `transitions.go`: the map lookup followed by the
linear scan of the allowed-target slice. -/
def CanTransition (f t : String) : Bool :=
  match AllowedTransitions f with
  | none => false
  | some allowed => allowed.contains t

/-- `InvalidTransitionError` from `internal/domain/errors.go`. -/
structure InvalidTransitionError where
  fromState : String
  toState : String
deriving DecidableEq, Repr

/-- `ValidateTransition` from `transitions.go`. -/
def ValidateTransition (f t : String) : Except InvalidTransitionError Unit :=
  if CanTransition f t then Except.ok () else Except.error ⟨f, t⟩

/-- The transition table exactly as the specification's §4.2 table lists it,
written independently of `AllowedTransitions` for the comparison theorem. -/
def specTransitionTable : List (String × String) :=
  [("INITIATED", "AUTHORIZED"), ("INITIATED", "VOIDED"), ("INITIATED", "FAILED"),
   ("AUTHORIZED", "PRE_SETTLEMENT_REVIEW"), ("AUTHORIZED", "CAPTURED"),
   ("AUTHORIZED", "VOIDED"),
   ("PRE_SETTLEMENT_REVIEW", "CAPTURED"),
   ("CAPTURED", "SETTLED"), ("CAPTURED", "REFUNDED"),
   ("SETTLED", "SETTLED")]

/-- The eight state names. -/
def stateNames : List String :=
  ["INITIATED", "AUTHORIZED", "PRE_SETTLEMENT_REVIEW", "CAPTURED",
   "SETTLED", "VOIDED", "REFUNDED", "FAILED"]

theorem canTransition_iff_mem (f t : String) :
    CanTransition f t = true ↔ (f, t) ∈ specTransitionTable := by
  unfold CanTransition AllowedTransitions specTransitionTable
  split_ifs with h1 h2 h3 h4 h5 h6 h7 h8 <;>
    simp_all [List.contains_cons, List.mem_cons, Prod.ext_iff]

theorem canTransition_unknown (f t : String) (h : f ∉ stateNames) :
    CanTransition f t = false := by
  unfold CanTransition AllowedTransitions
  unfold stateNames at h
  simp only [List.mem_cons, List.not_mem_nil, or_false, not_or] at h
  obtain ⟨h1, h2, h3, h4, h5, h6, h7, h8⟩ := h
  split_ifs
  all_goals simp_all

theorem canTransition_to_settled (s : String) :
    CanTransition s "SETTLED" = true ↔ s = "CAPTURED" ∨ s = "SETTLED" := by
  unfold CanTransition AllowedTransitions
  split_ifs <;> simp_all

/-! ## Payment entity (`internal/domain/payment.go`) -/

/-- `HistoryEntry` from `payment.go`. -/
structure HistoryEntry where
  timestamp : Nat
  fromState : String
  toState : String
  action : String
  details : String
deriving DecidableEq, Repr

/-- `Payment` from `payment.go`. The Go `Amount *big.Rat` is always
constructed from a successful `ParseAmount`, hence never nil; it is
modelled as a plain `ℚ`. -/
structure Payment where
  id : String
  amount : ℚ
  currency : String
  merchantID : String
  state : String
  voidReason : String
  history : List HistoryEntry
  createdAt : Nat
  updatedAt : Nat
deriving DecidableEq, Repr

/-- `NewPayment` from `payment.go`: creates the payment in INITIATED with
the single creation history entry. -/
def NewPayment (id : String) (amount : ℚ) (currency merchantID : String)
    (now : Nat) : Payment :=
  { id := id
    amount := amount
    currency := currency
    merchantID := merchantID
    state := "INITIATED"
    voidReason := ""
    history := [⟨now, "", "INITIATED", "CREATE", "Payment created"⟩]
    createdAt := now
    updatedAt := now }

/-- `Payment.TransitionTo` from `payment.go`: validates against the table;
on success mutates state, refreshes the update timestamp and appends one
history entry. The returned pair is the post-call payment object and the
returned error (`none` on success). -/
def Payment.TransitionTo (p : Payment) (newState action details : String)
    (now : Nat) : Payment × Option InvalidTransitionError :=
  match ValidateTransition p.state newState with
  | Except.error e => (p, some e)
  | Except.ok _ =>
      ({ p with
          state := newState
          updatedAt := now
          history := p.history ++ [⟨now, p.state, newState, action, details⟩] },
       none)

/-- `Payment.SetFailed` from `payment.go`: unconditionally moves the payment
to FAILED, refreshing the update timestamp and appending a history entry. -/
def Payment.SetFailed (p : Payment) (reason : String) (now : Nat) : Payment :=
  { p with
      state := "FAILED"
      updatedAt := now
      history := p.history ++ [⟨now, p.state, "FAILED", "FAIL", reason⟩] }

/-- `Payment.Equals` from `payment.go`: structural equality of id, amount
(exact rational comparison via `Cmp`), currency and merchant. -/
def Payment.Equals (p other : Payment) : Bool :=
  p.id == other.id && p.amount == other.amount &&
    p.currency == other.currency && p.merchantID == other.merchantID

/-! ## Amount parsing (`ParseAmount`, `internal/domain/payment.go`),
with a model of the Go standard library scanner `big.Rat.SetString`
(`math/big/ratconv.go`, `math/big/natconv.go`; every scan here passes base
argument 0, so base prefixes and `_` separators are in play) -/

/-- The split at the first `/` performed by `Rat.SetString`
(`strings.Index(s, "/")`; `/` is ASCII, so the byte split is the
character split). -/
def splitAtSlash : List Char → Option (List Char × List Char)
  | [] => none
  | '/' :: rest => some ([], rest)
  | c :: rest => (splitAtSlash rest).map (fun p => (c :: p.1, p.2))

/-- Go `scanSign`: one optional `+` or `-`. -/
def scanSign : List Char → Bool × List Char
  | '+' :: rest => (false, rest)
  | '-' :: rest => (true, rest)
  | l => (false, l)

/-- The digit value of a character in Go `nat.scan`: `0`-`9`, then `a`-`z`
and `A`-`Z` as 10-35 (the effective bases here are at most 16, below
`maxBaseSmall`), anything else the sentinel `MaxBase + 1 = 63`; any value
not below the base ends the scan. -/
def goDigitVal (c : Char) : Nat :=
  if '0' ≤ c ∧ c ≤ '9' then c.toNat - 48
  else if 'a' ≤ c ∧ c ≤ 'z' then c.toNat - 97 + 10
  else if 'A' ≤ c ∧ c ≤ 'Z' then c.toNat - 65 + 10
  else 63

/-- The running state of the digit loop of Go `nat.scan`: accumulated
value, digit count, radix-point position `dp`, class of the previous
character (`.` start or other / `0` digit / `_` separator), whether an
invalid separator was seen, and whether a radix point may still be
consumed. -/
structure NatScanState where
  val : Nat
  count : Nat
  dp : Option Nat
  prev : Char
  invalSep : Bool
  fracOk : Bool
deriving Repr

/-- The digit loop of Go `nat.scan` with base argument 0 (separators
permitted): consume digits below the effective base `b`, at most one radix
point when permitted, and `_` separators, stopping at (and leaving) the
first other character. The value is accumulated directly rather than in
Go's word-sized groups. -/
def natScanLoop (b : Nat) : List Char → NatScanState → NatScanState × List Char
  | [], st => (st, [])
  | c :: rest, st =>
      if c = '.' ∧ st.fracOk then
        natScanLoop b rest
          { st with
              fracOk := false
              invalSep := st.invalSep ∨ st.prev = '_'
              prev := '.'
              dp := some st.count }
      else if c = '_' then
        natScanLoop b rest
          { st with invalSep := st.invalSep ∨ st.prev ≠ '0', prev := '_' }
      else if goDigitVal c < b then
        natScanLoop b rest
          { st with val := st.val * b + goDigitVal c, count := st.count + 1, prev := '0' }
      else (st, c :: rest)

/-- Go `nat.scan` with base argument 0: a leading `0b`/`0o`/`0x` selects
base 2/8/16 (prefix codes 1-3, digit count reset, the prefix letter
consumed), a plain leading `0` selects octal when no fraction is permitted
(prefix code 4, count reset, follower reprocessed) and stays decimal with
the `0` counted otherwise; then the digit loop runs. Afterwards, no digits
with prefix code 4 is "just one 0" (value 0, reported base 10, count 1),
no digits otherwise is the no-digits error, and a dangling or misplaced
separator is the separator error. Returns the value, the effective base,
the Go `count` — negative when a radix point was consumed: `dp` minus the
digit count — and the unconsumed rest. -/
def natScan (l : List Char) (fracOk : Bool) : Option (Nat × Nat × Int × List Char) :=
  let st0 : NatScanState := ⟨0, 0, none, '.', false, fracOk⟩
  let start : Nat × Nat × NatScanState × List Char :=
    match l with
    | '0' :: c :: rest2 =>
        if c = 'b' ∨ c = 'B' then (2, 1, { st0 with prev := '0' }, rest2)
        else if c = 'o' ∨ c = 'O' then (8, 2, { st0 with prev := '0' }, rest2)
        else if c = 'x' ∨ c = 'X' then (16, 3, { st0 with prev := '0' }, rest2)
        else if fracOk then (10, 0, { st0 with prev := '0', count := 1 }, c :: rest2)
        else (8, 4, { st0 with prev := '0' }, c :: rest2)
    | ['0'] => (10, 0, { st0 with prev := '0', count := 1 }, [])
    | _ => (10, 0, st0, l)
  let b := start.1
  let res := natScanLoop b start.2.2.2 start.2.2.1
  let st := res.1
  if st.count = 0 then
    if start.2.1 = 4 then some (st.val, 10, 1, res.2)
    else none
  else if st.invalSep ∨ st.prev = '_' then none
  else
    let cnt : Int :=
      match st.dp with
      | some dp => (dp : Int) - (st.count : Int)
      | none => (st.count : Int)
    some (st.val, b, cnt, res.2)

/-- The running state of the digit loop of Go `scanExponent`. -/
structure ExpScanState where
  val : Nat
  prev : Char
  invalSep : Bool
  hasDigits : Bool
deriving Repr

/-- The digit loop of Go `scanExponent` (separators permitted). -/
def scanExpLoop : List Char → ExpScanState → ExpScanState × List Char
  | [], st => (st, [])
  | c :: rest, st =>
      if '0' ≤ c ∧ c ≤ '9' then
        scanExpLoop rest
          { st with val := st.val * 10 + (c.toNat - 48), prev := '0', hasDigits := true }
      else if c = '_' then
        scanExpLoop rest { st with invalSep := st.invalSep ∨ st.prev ≠ '0', prev := '_' }
      else (st, c :: rest)

/-- Go `scanExponent` as called by `Rat.SetString` (binary exponents and
separators permitted): an `e`/`E` (decimal) or `p`/`P` (binary) marker
followed by an optional sign and digits with separators; an absent marker
scans nothing. A marker without digits or with a misplaced separator is an
error, and the digits must fit a signed 64-bit integer
(`strconv.ParseInt`). -/
def scanExponent (l : List Char) : Option (Int × Nat × List Char) :=
  match l with
  | [] => some (0, 10, [])
  | c :: rest =>
      if c = 'e' ∨ c = 'E' ∨ c = 'p' ∨ c = 'P' then
        let ebase : Nat := if c = 'e' ∨ c = 'E' then 10 else 2
        let sg : Bool × List Char :=
          match rest with
          | '+' :: r2 => (false, r2)
          | '-' :: r2 => (true, r2)
          | r2 => (false, r2)
        let res := scanExpLoop sg.2 ⟨0, '.', false, false⟩
        let st := res.1
        if ¬ st.hasDigits then none
        else if st.invalSep ∨ st.prev = '_' then none
        else
          let v : Int := if sg.1 then -(st.val : Int) else (st.val : Int)
          if v < -(2 ^ 63 : Int) ∨ (2 ^ 63 : Int) - 1 < v then none
          else some (v, ebase, res.2)
      else some (0, 10, c :: rest)

/-- Go `Int.SetString` with base argument 0, as `Rat.SetString` uses it for
the fraction numerator: optional sign, `nat.scan` without fraction (so a
plain leading `0` reads as octal), the entire input consumed; zero carries
no sign. -/
def goIntSetString (l : List Char) : Option Int :=
  let sg := scanSign l
  match natScan sg.2 false with
  | none => none
  | some (v, _, _, rest) =>
      if rest ≠ [] then none
      else some (if sg.1 ∧ v ≠ 0 then -(v : Int) else (v : Int))

/-- Model of Go `math/big` `Rat.SetString`: an empty string fails; a
string with a `/` is a fraction — numerator via `Int.SetString` base 0,
denominator via an unsigned `nat.scan` base 0, both fully consumed and the
denominator nonzero; otherwise a sign, a mantissa via `nat.scan` base 0
with an optional radix point, and an optional exponent, fully consumed. A
zero mantissa short-circuits to `0`. The radix point contributes
`base^fcount` (`10` split as `2·5`, octal digits 3 bits, hex digits 4), a
decimal exponent contributes `10^exp = 2^exp·5^exp` and a binary one
`2^exp`, subject to Go's magnitude limits: the `5`-exponent magnitude at
most `10^6` and the `2`-exponent magnitude at most `2^30`. -/
def ratSetString (s : String) : Option ℚ :=
  if s.data = [] then none
  else
    match splitAtSlash s.data with
    | some (numPart, denPart) =>
        match goIntSetString numPart, natScan denPart false with
        | some n, some (d, _, _, rest) =>
            if rest ≠ [] then none
            else if d = 0 then none
            else some (mkRat n d)
        | _, _ => none
    | none =>
        let sg := scanSign s.data
        match natScan sg.2 true with
        | none => none
        | some (m, b, fcount, rest1) =>
            match scanExponent rest1 with
            | none => none
            | some (exp, ebase, rest2) =>
                if rest2 ≠ [] then none
                else if m = 0 then some 0
                else
                  let contrib : Int × Int :=
                    if fcount < 0 then
                      if b = 10 then (fcount, fcount)
                      else if b = 2 then (fcount, 0)
                      else if b = 8 then (3 * fcount, 0)
                      else (4 * fcount, 0)
                    else (0, 0)
                  let exp2 : Int := contrib.1 + exp
                  let exp5 : Int := contrib.2 + (if ebase = 10 then exp else 0)
                  if 1000000 < exp5.natAbs then none
                  else if exp2 < -(2 ^ 30 : Int) ∨ (2 ^ 30 : Int) < exp2 then none
                  else
                    let num5 : Nat := if 0 < exp5 then m * natPow 5 exp5.toNat else m
                    let den5 : Nat := if exp5 < 0 then natPow 5 (-exp5).toNat else 1
                    let num : Nat := if 0 < exp2 then num5 * natPow 2 exp2.toNat else num5
                    let den : Nat := if exp2 < 0 then den5 * natPow 2 (-exp2).toNat else den5
                    some (mkRat (if sg.1 then -(num : Int) else (num : Int)) den)

/-- `ParseAmount` from `payment.go`: `SetString` followed by the positivity
check `r.Sign() <= 0`. -/
def ParseAmount (s : String) : Except String ℚ :=
  match ratSetString s with
  | none => Except.error ("invalid amount format: " ++ s)
  | some r =>
      if r ≤ 0 then Except.error ("amount must be positive: " ++ s)
      else Except.ok r

/-! ## Amount formatting (`FormatRat`, `internal/domain/payment.go`)

`FormatRat` converts the rational to `float64` (`Rat.Float64`, which returns
the nearest double, ties to even, `±Inf` on overflow) and prints it with
`fmt.Sprintf("%.10f", f)` (correct rounding of the double's exact value to
10 fractional digits, ties to even), then trims trailing zeros keeping at
least one fractional digit. The double is modelled as the exact rational it
denotes. -/

/-- Number of binary digits of `n` (`0` for `0`), by fuel recursion so the
kernel can evaluate it. -/
def bitLenAux : Nat → Nat → Nat
  | 0, _ => 0
  | fuel + 1, n => if n = 0 then 0 else bitLenAux fuel (n / 2) + 1

/-- Number of binary digits of `n`. -/
def bitLen (n : Nat) : Nat := bitLenAux n n

/-- `2 ^ e` as a rational, for `e : ℤ`. -/
def ratPow2 (e : ℤ) : ℚ :=
  if 0 ≤ e then mkRat (Int.ofNat (natPow 2 e.toNat)) 1 else mkRat 1 (natPow 2 (-e).toNat)

/-- `⌊log₂ q⌋` for positive `q`. -/
def floorLog2 (q : ℚ) : ℤ :=
  let c : ℤ := (bitLen q.num.natAbs : ℤ) - (bitLen q.den : ℤ)
  if q < ratPow2 c then c - 1 else c

/-- Round to the nearest integer, ties to the even integer. -/
def roundHalfEven (q : ℚ) : ℤ :=
  let f := q.floor
  let t := 2 * q.num - (2 * f + 1) * (q.den : ℤ)
  if t < 0 then f else if 0 < t then f + 1 else if f % 2 = 0 then f else f + 1

/-- `q * 2 ^ k` as an exact rational. -/
def mulPow2 (q : ℚ) (k : ℤ) : ℚ :=
  if 0 ≤ k then mkRat (q.num * (natPow 2 k.toNat : ℕ)) q.den
  else mkRat q.num (q.den * natPow 2 (-k).toNat)

/-- `m * 2 ^ k` as an exact rational. -/
def intMulPow2 (m : ℤ) (k : ℤ) : ℚ :=
  if 0 ≤ k then mkRat (m * (natPow 2 k.toNat : ℕ)) 1 else mkRat m (natPow 2 (-k).toNat)

/-- `|q|` as a rational. -/
def ratAbs (q : ℚ) : ℚ := mkRat (Int.ofNat q.num.natAbs) q.den

/-- Model of Go `Rat.Float64`: the exact rational denoted by the nearest
IEEE-754 double (round to nearest, ties to even, 53-bit significand,
subnormals below `2^-1022`); `none` stands for an infinite result. -/
def ratToFloat64 (q : ℚ) : Option ℚ :=
  if q = 0 then some 0
  else
    let e := floorLog2 (ratAbs q)
    let scale : ℤ := max (e - 52) (-1074)
    let m := roundHalfEven (mulPow2 q (-scale))
    let f := intMulPow2 m scale
    if ratPow2 1024 ≤ f then none
    else if f ≤ mkRat (-(natPow 2 1024 : ℤ)) 1 then none
    else some f

/-- `q * 10 ^ k` as an exact rational. -/
def mulPow10 (q : ℚ) (k : Nat) : ℚ := mkRat (q.num * (natPow 10 k : ℕ)) q.den

/-- The character of a decimal digit. -/
def digitChar (d : Nat) : Char := Char.ofNat (48 + d)

/-- Decimal digits of `n`, most significant first, with fuel. -/
def natDigitsAux : Nat → Nat → List Char
  | 0, _ => []
  | fuel + 1, n =>
      if n < 10 then [digitChar n]
      else natDigitsAux fuel (n / 10) ++ [digitChar (n % 10)]

/-- Decimal digits of `n`, most significant first. -/
def natDigits (n : Nat) : List Char := natDigitsAux (n + 1) n

/-- The fractional part padded on the left to 10 digits. -/
def pad10 (n : Nat) : List Char :=
  List.replicate (10 - (natDigits n).length) '0' ++ natDigits n

/-- The digits of `%.10f` for the magnitude `m / 10^10`. -/
def fixedDigits (m : Nat) : String :=
  String.mk (natDigits (m / natPow 10 10) ++ '.' :: pad10 (m % natPow 10 10))

/-- The trailing-zero trimming loop of `FormatRat`, on the reversed
character list: drop a final `0` while more than one character remains and
the character before it is not the decimal point. -/
def trimAux : List Char → List Char
  | [] => []
  | [a] => [a]
  | a :: b :: rest => if a = '0' ∧ b ≠ '.' then trimAux (b :: rest) else a :: b :: rest

/-- Trailing-zero trimming of `FormatRat`. -/
def trimZeros (s : String) : String := String.mk (trimAux s.data.reverse).reverse

/-- `FormatRat` from `payment.go`: `nil` prints `"0"`; otherwise the
`float64` value is printed with `%.10f` (sign taken from the value, `±Inf`
when the conversion overflows) and trailing zeros are trimmed. -/
def FormatRat (r : Option ℚ) : String :=
  match r with
  | none => "0"
  | some q =>
      match ratToFloat64 q with
      | none => if q < 0 then "-Inf" else "+Inf"
      | some f =>
          let n : ℤ := roundHalfEven (mulPow10 f 10)
          trimZeros ((if q < 0 then "-" else "") ++ fixedDigits n.natAbs)

/-- `Payment.FormatAmount` from `payment.go`. -/
def Payment.FormatAmount (p : Payment) : String := FormatRat (some p.amount)

/-! ## In-memory store (`internal/store/memory.go`)

The store maps payment ids to payments; modelled as an association list
with unique keys. `Save` is insert-or-replace by `payment.ID`; `Get` is
lookup. The reader/writer lock is irrelevant to the sequential command
loop and is not modelled. -/

/-- The payments map of `MemoryStore`. -/
abbrev Store := List (String × Payment)

/-- `MemoryStore.Get`. -/
def storeGet (st : Store) (id : String) : Option Payment :=
  match st with
  | [] => none
  | (k, v) :: rest => if k = id then some v else storeGet rest id

/-- `MemoryStore.Save`: insert-or-replace keyed by `payment.ID`. -/
def storeSave (st : Store) (p : Payment) : Store :=
  match st with
  | [] => [(p.id, p)]
  | (k, v) :: rest => if k = p.id then (k, p) :: rest else (k, v) :: storeSave rest p

/-! ## Command processor (`internal/service/processor.go`)

Only the handlers the claims exercise are embedded: `handleCreate`,
`handleAuthorize`, `handleSettle` and `handleStatus`. A handler returns the
post-call store together with the Go `(string, error)` pair as an `Except`.
The Go `p.store.Save` never fails for the memory store, so its error branch
is dead code and not modelled. -/

/-- The typed errors a modelled handler can return: `CreateConflictError`
and `InvalidTransitionError` from `internal/domain/errors.go`, and the
untyped `fmt.Errorf` messages. -/
inductive ProcError where
  | errMsg (s : String)
  | errInvalidTransition (e : InvalidTransitionError)
  | errCreateConflict (id : String)
deriving DecidableEq, Repr

/-- `handleCreate` from `processor.go`: argument-count, currency-length
(byte length, as Go `len`) and merchant checks, amount parsing, then the
idempotency / conflict logic against the stored payment. -/
def handleCreate (st : Store) (args : List String) (now : Nat) :
    Store × Except ProcError String :=
  match args with
  | paymentID :: amountStr :: currency :: merchantID :: _ =>
      if currency.utf8ByteSize ≠ 3 then
        (st, Except.error (ProcError.errMsg
          ("currency must be a 3-letter code: " ++ currency)))
      else if merchantID = "" then
        (st, Except.error (ProcError.errMsg "merchant_id cannot be empty"))
      else
        match ParseAmount amountStr with
        | Except.error e =>
            (st, Except.error (ProcError.errMsg ("invalid amount: " ++ e)))
        | Except.ok amount =>
            match storeGet st paymentID with
            | some existing =>
                let newPayment := NewPayment paymentID amount currency merchantID now
                if existing.Equals newPayment then
                  (st, Except.ok
                    ("Payment " ++ paymentID ++ " already exists (idempotent)"))
                else
                  let failed := existing.SetFailed "create conflict" now
                  (storeSave st failed,
                   Except.error (ProcError.errCreateConflict paymentID))
            | none =>
                let payment := NewPayment paymentID amount currency merchantID now
                (storeSave st payment,
                 Except.ok ("Payment " ++ paymentID ++ " created: " ++
                   payment.FormatAmount ++ " " ++ currency))
  | _ =>
      (st, Except.error (ProcError.errMsg
        "CREATE requires 4 arguments: <payment_id> <amount> <currency> <merchant_id>"))

/-- `handleAuthorize` from `processor.go`: transition to AUTHORIZED, then,
when a threshold is configured and `amount ≥ threshold`, the second
transition to PRE_SETTLEMENT_REVIEW. `threshold` is the processor's
`preSettlementThreshold` (`none` for Go nil). -/
def handleAuthorize (threshold : Option ℚ) (st : Store) (args : List String)
    (now : Nat) : Store × Except ProcError String :=
  match args with
  | paymentID :: _ =>
      match storeGet st paymentID with
      | none =>
          (st, Except.error (ProcError.errMsg
            ("payment " ++ paymentID ++ " not found")))
      | some payment =>
          match payment.TransitionTo "AUTHORIZED" "AUTHORIZE" "Payment authorized" now with
          | (_, some e) => (st, Except.error (ProcError.errInvalidTransition e))
          | (p1, none) =>
              let review : Bool :=
                match threshold with
                | some th => th ≤ p1.amount
                | none => false
              if review then
                match p1.TransitionTo "PRE_SETTLEMENT_REVIEW" "REVIEW"
                    "Amount exceeds threshold" now with
                | (_, some e) =>
                    (st, Except.error (ProcError.errMsg
                      ("failed to move to pre-settlement review: invalid transition from "
                        ++ e.fromState ++ " to " ++ e.toState)))
                | (p2, none) =>
                    (storeSave st p2,
                     Except.ok ("Payment " ++ paymentID ++
                       " authorized and moved to PRE_SETTLEMENT_REVIEW"))
              else
                (storeSave st p1,
                 Except.ok ("Payment " ++ paymentID ++ " authorized"))
  | [] => (st, Except.error (ProcError.errMsg "AUTHORIZE requires payment_id"))

/-- `handleSettle` from `processor.go`: the idempotent SETTLED check before
the CAPTURED→SETTLED transition. -/
def handleSettle (st : Store) (args : List String) (now : Nat) :
    Store × Except ProcError String :=
  match args with
  | paymentID :: _ =>
      match storeGet st paymentID with
      | none =>
          (st, Except.error (ProcError.errMsg
            ("payment " ++ paymentID ++ " not found")))
      | some payment =>
          if payment.state = "SETTLED" then
            (st, Except.ok ("Payment " ++ paymentID ++ " already settled (idempotent)"))
          else
            match payment.TransitionTo "SETTLED" "SETTLE" "Payment settled" now with
            | (_, some e) => (st, Except.error (ProcError.errInvalidTransition e))
            | (p1, none) =>
                (storeSave st p1, Except.ok ("Payment " ++ paymentID ++ " settled"))
  | [] => (st, Except.error (ProcError.errMsg "SETTLE requires payment_id"))

/-- `handleStatus` from `processor.go` (read-only, so only the result pair
is returned). -/
def handleStatus (st : Store) (args : List String) : Except ProcError String :=
  match args with
  | paymentID :: _ =>
      match storeGet st paymentID with
      | none =>
          Except.error (ProcError.errMsg ("payment " ++ paymentID ++ " not found"))
      | some payment =>
          Except.ok ("Payment " ++ payment.id ++ ": state=" ++ payment.state ++
            " amount=" ++ payment.FormatAmount ++ " currency=" ++ payment.currency ++
            " merchant=" ++ payment.merchantID)
  | [] => Except.error (ProcError.errMsg "STATUS requires payment_id")

/-- The `PRE_SETTLEMENT_THRESHOLD` parsing in `main` (`cmd/payment-sim`):
an unset (`""`) or `"0"` variable leaves the processor's threshold nil;
otherwise the value must scan as a rational, and a scan failure aborts the
process (modelled as the error branch). -/
def mainThreshold (s : String) : Except String (Option ℚ) :=
  if s = "" ∨ s = "0" then Except.ok none
  else
    match ratSetString s with
    | none => Except.error ("invalid PRE_SETTLEMENT_THRESHOLD: " ++ s)
    | some t => Except.ok (some t)

/-! ## Command-line parser (`internal/parser/parser.go`)

`strings.Fields` and `strings.TrimSpace` are modelled over the character
list with `Char.isWhitespace` standing for Go `unicode.IsSpace` (they agree
on the ASCII whitespace the input format uses). -/

/-- Word splitting of Go `strings.Fields`, with the (reversed) current word
as accumulator. -/
def fieldsAux : List Char → List Char → List String
  | [], acc => if acc = [] then [] else [String.mk acc.reverse]
  | c :: rest, acc =>
      if c.isWhitespace then
        if acc = [] then fieldsAux rest []
        else String.mk acc.reverse :: fieldsAux rest []
      else fieldsAux rest (c :: acc)

/-- `tokenize` from `parser.go` (`strings.Fields`). -/
def tokenize (s : String) : List String := fieldsAux s.data []

/-- Drop leading whitespace. -/
def trimLeft : List Char → List Char
  | [] => []
  | c :: rest => if c.isWhitespace then trimLeft rest else c :: rest

/-- Go `strings.TrimSpace`. -/
def trimSpace (s : String) : String :=
  String.mk ((trimLeft ((trimLeft s.data).reverse)).reverse)

/-- Go `strings.HasPrefix(token, "#")`. -/
def startsWithHash (t : String) : Bool :=
  match t.data with
  | '#' :: _ => true
  | _ => false

/-- `commandArgCounts` from `parser.go`: required-argument counts. -/
def commandArgCounts (name : String) : Option Nat :=
  if name = "CREATE" then some 4
  else if name = "AUTHORIZE" then some 1
  else if name = "CAPTURE" then some 1
  else if name = "VOID" then some 1
  else if name = "REFUND" then some 1
  else if name = "SETTLE" then some 1
  else if name = "SETTLEMENT" then some 1
  else if name = "STATUS" then some 1
  else if name = "LIST" then some 0
  else if name = "AUDIT" then some 1
  else if name = "EXIT" then some 0
  else none

/-- The token loop of `extractArgs` from `parser.go`. `tokenIdx` is the
0-based index into the argument tokens, so the Go `totalTokensSoFar`
(1-based position counting the command name) is `1 + tokenIdx + 1`. The
error strings carry the same information as the Go messages (paraphrased). -/
def extractArgsLoop (toks : List String) (tokenIdx : Nat) (args : List String)
    (req : Nat) (cmdName : String) : Except String (List String) :=
  match toks with
  | [] =>
      if args.length < req then
        Except.error ("insufficient arguments for " ++ cmdName ++ ": expected "
          ++ toString req ++ ", got " ++ toString args.length)
      else Except.ok args
  | token :: rest =>
      let total := 1 + tokenIdx + 1
      if req ≤ args.length then
        if startsWithHash token then
          if 3 < total then Except.ok args
          else
            Except.error ("malformed input: comment only allowed after third token (found at position "
              ++ toString total ++ ")")
        else extractArgsLoop rest (tokenIdx + 1) (args ++ [token]) req cmdName
      else
        if startsWithHash token then
          Except.error ("malformed input: unexpected comment marker in required argument position for "
            ++ cmdName ++ " (found at position " ++ toString total ++ ", need position 4+)")
        else extractArgsLoop rest (tokenIdx + 1) (args ++ [token]) req cmdName

/-- `extractArgs` from `parser.go`. -/
def extractArgs (tokens : List String) (requiredCount : Nat) (cmdName : String) :
    Except String (List String) :=
  extractArgsLoop tokens 0 [] requiredCount cmdName

/-- `Command` from `parser.go`. -/
structure Command where
  name : String
  args : List String
deriving DecidableEq, Repr

/-- `Parse` from `parser.go`. -/
def Parse (line : String) : Except String Command :=
  let trimmed := trimSpace line
  if trimmed = "" then Except.error "empty input"
  else
    match tokenize trimmed with
    | [] => Except.error "empty input"
    | cmdName :: rest =>
        match commandArgCounts cmdName with
        | none => Except.error ("unknown command: " ++ cmdName)
        | some req =>
            match extractArgs rest req cmdName with
            | Except.error e => Except.error e
            | Except.ok args => Except.ok ⟨cmdName, args⟩

/-! ## Helper lemmas -/

theorem storeGet_storeSave_self (st : Store) (p : Payment) :
    storeGet (storeSave st p) p.id = some p := by
  induction st with
  | nil => simp [storeSave, storeGet]
  | cons kv rest ih =>
      obtain ⟨k, v⟩ := kv
      by_cases h : k = p.id
      · simp [storeSave, storeGet, h]
      · simp [storeSave, storeGet, h, ih]

theorem trimAux_zero_head (l : List Char) :
    ∀ c rest, trimAux l = '0' :: c :: rest → c = '.' := by
  induction l with
  | nil => intro c rest h; simp [trimAux] at h
  | cons a tail ih =>
      rcases tail with _ | ⟨b, rest2⟩
      · intro c rest h
        simp [trimAux] at h
      · intro c rest h
        rw [trimAux] at h
        split_ifs at h with hcond
        · exact ih c rest h
        · injection h with h1 h2
          injection h2 with h3 h4
          push_neg at hcond
          subst h3
          exact hcond h1

theorem trimAux_keeps_head (l : List Char) (hne : l ≠ [])
    (hd : l.head? ≠ some '.') :
    trimAux l ≠ [] ∧ (trimAux l).head? ≠ some '.' := by
  induction l with
  | nil => exact absurd rfl hne
  | cons a tail ih =>
      match tail with
      | [] => simpa [trimAux] using hd
      | b :: rest2 =>
          rw [trimAux]
          split_ifs with hcond
          · exact ih (by simp) (by simp [hcond.2])
          · simpa using hd

theorem trimAux_mem_dot (l : List Char) (h : '.' ∈ l) : '.' ∈ trimAux l := by
  induction l with
  | nil => simp at h
  | cons a tail ih =>
      match tail with
      | [] => simpa [trimAux] using h
      | b :: rest2 =>
          rw [trimAux]
          split_ifs with hcond
          · apply ih
            rcases List.mem_cons.mp h with h1 | h1
            · exact absurd (h1 ▸ hcond.1) (by decide)
            · exact h1
          · exact h

theorem natDigitsAux_ne_nil (fuel n : Nat) (h : fuel ≠ 0) :
    natDigitsAux fuel n ≠ [] := by
  match fuel with
  | 0 => exact absurd rfl h
  | f + 1 =>
      rw [natDigitsAux]
      split_ifs <;> simp

theorem natDigits_ne_nil (n : Nat) : natDigits n ≠ [] :=
  natDigitsAux_ne_nil (n + 1) n (Nat.succ_ne_zero n)

theorem mem_natDigitsAux (fuel n : Nat) (c : Char)
    (h : c ∈ natDigitsAux fuel n) : ∃ d, d < 10 ∧ c = digitChar d := by
  induction fuel generalizing n with
  | zero => simp [natDigitsAux] at h
  | succ f ih =>
      rw [natDigitsAux] at h
      split_ifs at h with h10
      · exact ⟨n, h10, by simpa using h⟩
      · rcases List.mem_append.mp h with h1 | h1
        · exact ih (n / 10) h1
        · exact ⟨n % 10, Nat.mod_lt n (by omega), by simpa using h1⟩

theorem digitChar_ne_dot (d : Nat) (hd : d < 10) : digitChar d ≠ '.' := by
  interval_cases d <;> decide

theorem pad10_ne_nil (n : Nat) : pad10 n ≠ [] := by
  unfold pad10
  simp [natDigits_ne_nil n]

theorem pad10_last_digit (n : Nat) :
    ∀ c, (pad10 n).getLast? = some c → ∃ d, d < 10 ∧ c = digitChar d := by
  intro c hc
  unfold pad10 at hc
  rw [List.getLast?_append_of_ne_nil _ (natDigits_ne_nil n)] at hc
  have hmem : c ∈ natDigits n := List.mem_of_getLast?_eq_some hc
  exact mem_natDigitsAux (n + 1) n c hmem

/-! ## Claim theorems -/

/-- C4: `can_transition` agrees exactly with the specification's transition
table, and both `can_transition` and `validate_transition` are total: any
`from` string outside the eight states yields `false` / an
`InvalidTransition` failure. -/
theorem claim_C4 :
    (∀ f t, CanTransition f t = true ↔ (f, t) ∈ specTransitionTable) ∧
    (∀ f t, f ∉ stateNames →
      CanTransition f t = false ∧
        ValidateTransition f t = Except.error ⟨f, t⟩) := by
  refine ⟨canTransition_iff_mem, fun f t h => ?_⟩
  have hc := canTransition_unknown f t h
  refine ⟨hc, ?_⟩
  unfold ValidateTransition
  rw [hc]
  simp

/-- C4 witness: evaluation at a `from` string that is not a state. -/
theorem claim_C4_witness :
    CanTransition "BOGUS" "AUTHORIZED" = false ∧
      ValidateTransition "BOGUS" "AUTHORIZED" =
        Except.error ⟨"BOGUS", "AUTHORIZED"⟩ :=
  claim_C4.2 "BOGUS" "AUTHORIZED" (by decide)

/-- C5: a failing `transition` leaves the payment completely unchanged
(the whole record, hence state, history, timestamps and attributes); a
successful one sets the target state, refreshes the update timestamp and
appends exactly one history entry, leaving every other field unchanged. -/
theorem claim_C5 (p : Payment) (newState action details : String) (now : Nat) :
    ((p.TransitionTo newState action details now).2.isSome →
      (p.TransitionTo newState action details now).1 = p) ∧
    ((p.TransitionTo newState action details now).2 = none →
      (p.TransitionTo newState action details now).1.state = newState ∧
      (p.TransitionTo newState action details now).1.updatedAt = now ∧
      (p.TransitionTo newState action details now).1.history =
        p.history ++ [⟨now, p.state, newState, action, details⟩] ∧
      (p.TransitionTo newState action details now).1.id = p.id ∧
      (p.TransitionTo newState action details now).1.amount = p.amount ∧
      (p.TransitionTo newState action details now).1.currency = p.currency ∧
      (p.TransitionTo newState action details now).1.merchantID = p.merchantID ∧
      (p.TransitionTo newState action details now).1.voidReason = p.voidReason ∧
      (p.TransitionTo newState action details now).1.createdAt = p.createdAt) := by
  unfold Payment.TransitionTo
  cases h : ValidateTransition p.state newState <;> simp

/-- C5 witness: a rejected and an accepted transition on a fresh payment. -/
theorem claim_C5_witness :
    ((NewPayment "P1" (mkRat 100 1) "USD" "M1" 0).TransitionTo
        "SETTLED" "SETTLE" "Payment settled" 5).1 =
      NewPayment "P1" (mkRat 100 1) "USD" "M1" 0 ∧
    ((NewPayment "P1" (mkRat 100 1) "USD" "M1" 0).TransitionTo
        "AUTHORIZED" "AUTHORIZE" "Payment authorized" 5).1.state = "AUTHORIZED" :=
  ⟨(claim_C5 (NewPayment "P1" (mkRat 100 1) "USD" "M1" 0)
      "SETTLED" "SETTLE" "Payment settled" 5).1 (by decide),
   ((claim_C5 (NewPayment "P1" (mkRat 100 1) "USD" "M1" 0)
      "AUTHORIZED" "AUTHORIZE" "Payment authorized" 5).2 (by decide)).1⟩

theorem pad10_getLast_ne_dot (n : Nat) : (pad10 n).getLast? ≠ some '.' := by
  intro h
  obtain ⟨d, hd, hc⟩ := pad10_last_digit n '.' h
  exact digitChar_ne_dot d hd hc.symm

/-- The shape of `FormatRat` output for a nonnegative finite value: written
reversed, it is nonempty, contains the decimal point, does not start with it
(so at least one fractional digit is kept), and starts with `0` only when
the next character is the point (so all removable trailing zeros are
trimmed). -/
theorem formatRat_shape (q f : ℚ) (hf : ratToFloat64 q = some f) (hq : 0 ≤ q) :
    (FormatRat (some q)).data.reverse ≠ [] ∧
    '.' ∈ (FormatRat (some q)).data ∧
    (FormatRat (some q)).data.reverse.head? ≠ some '.' ∧
    (∀ c rest, (FormatRat (some q)).data.reverse = '0' :: c :: rest → c = '.') := by
  have hneg : ¬ q < 0 := not_lt.mpr hq
  have hEq : FormatRat (some q) =
      trimZeros (fixedDigits (roundHalfEven (mulPow10 f 10)).natAbs) := by
    unfold FormatRat
    simp only [hf, if_neg hneg, String.empty_append]
  set m := (roundHalfEven (mulPow10 f 10)).natAbs with hm
  have hraw : (fixedDigits m).data =
      natDigits (m / natPow 10 10) ++ '.' :: pad10 (m % natPow 10 10) := rfl
  set a := m / natPow 10 10
  set b := m % natPow 10 10
  have hrev : (fixedDigits m).data.reverse =
      (pad10 b).reverse ++ '.' :: (natDigits a).reverse := by
    rw [hraw]
    simp [List.reverse_append]
  have hpadrev : (pad10 b).reverse ≠ [] := by
    simp [pad10_ne_nil b]
  have hrne : (fixedDigits m).data.reverse ≠ [] := by
    rw [hrev]
    simp [hpadrev]
  have hrhead : (fixedDigits m).data.reverse.head? ≠ some '.' := by
    rw [hrev]
    rw [List.head?_append]
    rw [List.head?_reverse]
    cases hp : (pad10 b).getLast? with
    | none =>
        exact absurd (List.getLast?_eq_none_iff.mp hp) (pad10_ne_nil b)
    | some c =>
        have : c ≠ '.' := fun hcc => pad10_getLast_ne_dot b (hcc ▸ hp)
        simpa [Option.or] using this
  have hrdot : '.' ∈ (fixedDigits m).data.reverse := by
    rw [hrev]
    simp
  have hsdata : (FormatRat (some q)).data =
      (trimAux ((fixedDigits m).data.reverse)).reverse := by
    rw [hEq]
    rfl
  have hsrev : (FormatRat (some q)).data.reverse =
      trimAux ((fixedDigits m).data.reverse) := by
    rw [hsdata, List.reverse_reverse]
  have hkeep := trimAux_keeps_head _ hrne hrhead
  refine ⟨?_, ?_, ?_, ?_⟩
  · rw [hsrev]; exact hkeep.1
  · rw [hsdata]
    rw [List.mem_reverse]
    exact trimAux_mem_dot _ hrdot
  · rw [hsrev]; exact hkeep.2
  · rw [hsrev]; exact trimAux_zero_head _

/-- C3 counterexample: the formatter is not exact. The amount `1/3`
(creatable, since the scanner accepts fractions) renders as ten digits
whose decimal value differs from `1/3`. -/
theorem claim_C3_counterexample :
    FormatRat (some ((1 : ℚ)/3)) = "0.3333333333" ∧
    (3333333333 : ℚ) / 10 ^ 10 ≠ (1 : ℚ)/3 := by
  constructor
  · have h1 : (1 : ℚ)/3 = mkRat 1 3 := by norm_num [Rat.mkRat_eq_div]
    rw [h1]
    decide
  · norm_num

/-- C3 as amended: the formatter renders the `float64` approximation of the
value rounded to at most 10 fractional digits — exact on the
representative values (`100 ↦ "100.0"`, `10.5 ↦ "10.5"`, `0.01 ↦ "0.01"`),
rounded when the value needs more digits (`1/3 ↦ "0.3333333333"`) — with
trailing zeros trimmed but at least one digit kept after the decimal
point, and a missing amount rendered as `"0"`. -/
theorem claim_C3 :
    FormatRat none = "0" ∧
    FormatRat (some (100 : ℚ)) = "100.0" ∧
    FormatRat (some ((21 : ℚ)/2)) = "10.5" ∧
    FormatRat (some ((1 : ℚ)/100)) = "0.01" ∧
    FormatRat (some ((1 : ℚ)/3)) = "0.3333333333" ∧
    (∀ q f, ratToFloat64 q = some f → 0 ≤ q →
      (FormatRat (some q)).data.reverse ≠ [] ∧
      '.' ∈ (FormatRat (some q)).data ∧
      (FormatRat (some q)).data.reverse.head? ≠ some '.' ∧
      (∀ c rest, (FormatRat (some q)).data.reverse = '0' :: c :: rest → c = '.')) := by
  refine ⟨by decide, by decide, ?_, ?_, ?_, formatRat_shape⟩
  · have h1 : (21 : ℚ)/2 = mkRat 21 2 := by norm_num [Rat.mkRat_eq_div]
    rw [h1]
    decide
  · have h1 : (1 : ℚ)/100 = mkRat 1 100 := by norm_num [Rat.mkRat_eq_div]
    rw [h1]
    decide
  · have h1 : (1 : ℚ)/3 = mkRat 1 3 := by norm_num [Rat.mkRat_eq_div]
    rw [h1]
    decide

/-- C3 witness: the shape conjunct evaluated at the amount `1/2`. -/
theorem claim_C3_witness :
    (FormatRat (some (mkRat 1 2))).data.reverse ≠ [] ∧
    '.' ∈ (FormatRat (some (mkRat 1 2))).data ∧
    (FormatRat (some (mkRat 1 2))).data.reverse.head? ≠ some '.' ∧
    (∀ c rest,
      (FormatRat (some (mkRat 1 2))).data.reverse = '0' :: c :: rest → c = '.') :=
  claim_C3.2.2.2.2.2 (mkRat 1 2) (mkRat 1 2) (by decide) (by decide)

/-- C10: the amount scanner accepts more than decimal and integer
literals — the fraction `3/2` and the exponent form `2e3` parse to the
exact rationals `3/2` and `2000`, so CREATE accepts them, and likewise the
other scanner forms: hexadecimal `0x10`, the binary exponent `1p4`, the
separated `1_000`, and the octal fraction numerator in `010/2` — while any
input scanning to a zero or negative value, and any text denoting no
rational, still fails. -/
theorem claim_C10 :
    ParseAmount "3/2" = Except.ok ((3 : ℚ)/2) ∧
    ParseAmount "2e3" = Except.ok (2000 : ℚ) ∧
    (handleCreate [] ["P1", "3/2", "USD", "M1"] 0).2 =
      Except.ok "Payment P1 created: 1.5 USD" ∧
    ParseAmount "0x10" = Except.ok (16 : ℚ) ∧
    ParseAmount "1p4" = Except.ok (16 : ℚ) ∧
    ParseAmount "1_000" = Except.ok (1000 : ℚ) ∧
    ParseAmount "010/2" = Except.ok (4 : ℚ) ∧
    (∀ s r, ratSetString s = some r → r ≤ 0 →
      ParseAmount s = Except.error ("amount must be positive: " ++ s)) ∧
    (∀ s, ratSetString s = none →
      ParseAmount s = Except.error ("invalid amount format: " ++ s)) := by
  refine ⟨?_, ?_, by decide, by decide, by decide, by decide, by decide, ?_, ?_⟩
  · have h1 : (3 : ℚ)/2 = mkRat 3 2 := by norm_num [Rat.mkRat_eq_div]
    rw [h1]
    decide
  · have h1 : (2000 : ℚ) = mkRat 2000 1 := by norm_num [Rat.mkRat_eq_div]
    rw [h1]
    decide
  · intro s r h hle
    unfold ParseAmount
    rw [h]
    show (if r ≤ 0 then Except.error ("amount must be positive: " ++ s)
        else Except.ok r) = Except.error ("amount must be positive: " ++ s)
    exact if_pos hle
  · intro s h
    unfold ParseAmount
    rw [h]

/-- C10 witness: the rejection conjuncts evaluated at `"0"` and `"abc"`. -/
theorem claim_C10_witness :
    ParseAmount "0" = Except.error ("amount must be positive: " ++ "0") ∧
    ParseAmount "abc" = Except.error ("invalid amount format: " ++ "abc") :=
  ⟨claim_C10.2.2.2.2.2.2.2.1 "0" 0 (by decide) (by decide),
   claim_C10.2.2.2.2.2.2.2.2 "abc" (by decide)⟩

/-- C2: for a payment in INITIATED, AUTHORIZE with a configured threshold
`th ≤ amount` ends in PRE_SETTLEMENT_REVIEW and reports that outcome; with
the processor threshold nil — which is what an unset or `"0"`
`PRE_SETTLEMENT_THRESHOLD` configures — it ends in AUTHORIZED. -/
theorem claim_C2 (st : Store) (id : String) (p : Payment) (now : Nat)
    (hget : storeGet st id = some p) (hid : p.id = id)
    (hstate : p.state = "INITIATED") :
    (∀ th : ℚ, th ≤ p.amount →
      (handleAuthorize (some th) st [id] now).2 =
        Except.ok ("Payment " ++ id ++ " authorized and moved to PRE_SETTLEMENT_REVIEW") ∧
      (storeGet (handleAuthorize (some th) st [id] now).1 id).map Payment.state =
        some "PRE_SETTLEMENT_REVIEW") ∧
    ((handleAuthorize none st [id] now).2 =
        Except.ok ("Payment " ++ id ++ " authorized") ∧
      (storeGet (handleAuthorize none st [id] now).1 id).map Payment.state =
        some "AUTHORIZED") ∧
    mainThreshold "0" = Except.ok none ∧
    mainThreshold "" = Except.ok none := by
  have hval1 : ValidateTransition p.state "AUTHORIZED" = Except.ok () := by
    rw [hstate]
    decide
  have hval2 : ValidateTransition "AUTHORIZED" "PRE_SETTLEMENT_REVIEW" =
      Except.ok () := by decide
  subst hid
  refine ⟨?_, ?_, by decide, by decide⟩
  · intro th hth
    have hdec : decide (th ≤ p.amount) = true := decide_eq_true hth
    simp only [handleAuthorize, hget, Payment.TransitionTo, hval1, hval2, hdec,
      if_true]
    constructor
    · trivial
    · rw [storeGet_storeSave_self]
      rfl
  · simp only [handleAuthorize, hget, Payment.TransitionTo, hval1,
      Bool.false_eq_true, if_false]
    constructor
    · trivial
    · rw [storeGet_storeSave_self]
      rfl

/-- The store holding P1 after `CREATE P1 1500.00 USD M1` at time 0. -/
def c2Store : Store := (handleCreate [] ["P1", "1500.00", "USD", "M1"] 0).1

/-- The payment stored in `c2Store`. -/
def c2Payment : Payment := NewPayment "P1" (mkRat 1500 1) "USD" "M1" 0

/-- C2 witness: threshold 1000 against amount 1500. -/
theorem claim_C2_witness :
    (handleAuthorize (some (mkRat 1000 1)) c2Store ["P1"] 1).2 =
      Except.ok ("Payment " ++ "P1" ++ " authorized and moved to PRE_SETTLEMENT_REVIEW") ∧
    (storeGet (handleAuthorize (some (mkRat 1000 1)) c2Store ["P1"] 1).1 "P1").map
        Payment.state = some "PRE_SETTLEMENT_REVIEW" :=
  (claim_C2 c2Store "P1" c2Payment 1 (by decide) (by decide) (by decide)).1
    (mkRat 1000 1) (by decide)

/-- C6: on a fresh id with valid arguments, CREATE followed by an identical
CREATE is a no-op — the second call leaves the store untouched, succeeds
with the idempotent confirmation, and the history length equals the length
after one call. -/
theorem claim_C6 (st0 : Store) (id amtStr cur mer : String) (a : ℚ) (t1 t2 : Nat)
    (hfresh : storeGet st0 id = none) (hcur : cur.utf8ByteSize = 3)
    (hmer : mer ≠ "") (hamt : ParseAmount amtStr = Except.ok a) :
    (handleCreate (handleCreate st0 [id, amtStr, cur, mer] t1).1
        [id, amtStr, cur, mer] t2).1 =
      (handleCreate st0 [id, amtStr, cur, mer] t1).1 ∧
    (handleCreate (handleCreate st0 [id, amtStr, cur, mer] t1).1
        [id, amtStr, cur, mer] t2).2 =
      Except.ok ("Payment " ++ id ++ " already exists (idempotent)") ∧
    (storeGet (handleCreate (handleCreate st0 [id, amtStr, cur, mer] t1).1
        [id, amtStr, cur, mer] t2).1 id).map (fun q => q.history.length) =
      (storeGet (handleCreate st0 [id, amtStr, cur, mer] t1).1 id).map
        (fun q => q.history.length) := by
  have h1 : handleCreate st0 [id, amtStr, cur, mer] t1 =
      (storeSave st0 (NewPayment id a cur mer t1),
       Except.ok ("Payment " ++ id ++ " created: " ++
         (NewPayment id a cur mer t1).FormatAmount ++ " " ++ cur)) := by
    simp [handleCreate, hfresh, hamt, hcur, hmer]
  have hget2 : storeGet (storeSave st0 (NewPayment id a cur mer t1)) id =
      some (NewPayment id a cur mer t1) :=
    storeGet_storeSave_self st0 (NewPayment id a cur mer t1)
  have heqls : (NewPayment id a cur mer t1).Equals (NewPayment id a cur mer t2) =
      true := by
    simp [Payment.Equals, NewPayment]
  have h2 : handleCreate (storeSave st0 (NewPayment id a cur mer t1))
      [id, amtStr, cur, mer] t2 =
      (storeSave st0 (NewPayment id a cur mer t1),
       Except.ok ("Payment " ++ id ++ " already exists (idempotent)")) := by
    simp [handleCreate, hget2, hamt, hcur, hmer, heqls]
  rw [h1, h2]
  exact ⟨rfl, rfl, rfl⟩

/-- C6 witness: two identical CREATE calls for a fresh P1. -/
theorem claim_C6_witness :
    (handleCreate (handleCreate [] ["P1", "100.00", "USD", "M1"] 0).1
        ["P1", "100.00", "USD", "M1"] 1).1 =
      (handleCreate [] ["P1", "100.00", "USD", "M1"] 0).1 ∧
    (handleCreate (handleCreate [] ["P1", "100.00", "USD", "M1"] 0).1
        ["P1", "100.00", "USD", "M1"] 1).2 =
      Except.ok ("Payment " ++ "P1" ++ " already exists (idempotent)") ∧
    (storeGet (handleCreate (handleCreate [] ["P1", "100.00", "USD", "M1"] 0).1
        ["P1", "100.00", "USD", "M1"] 1).1 "P1").map (fun q => q.history.length) =
      (storeGet (handleCreate [] ["P1", "100.00", "USD", "M1"] 0).1 "P1").map
        (fun q => q.history.length) :=
  claim_C6 [] "P1" "100.00" "USD" "M1" (mkRat 100 1) 0 1
    (by decide) (by decide) (by decide) (by decide)

/-- C7: CREATE against an INITIATED payment with any differing attribute
marks the stored payment FAILED (appending one history entry), persists it,
fails with CreateConflict naming the id, and a subsequent STATUS reports
state FAILED. -/
theorem claim_C7 (st : Store) (id amtStr cur mer : String) (p : Payment) (a : ℚ)
    (now : Nat) (hget : storeGet st id = some p) (hid : p.id = id)
    (_hstate : p.state = "INITIATED") (hcur : cur.utf8ByteSize = 3)
    (hmer : mer ≠ "") (hamt : ParseAmount amtStr = Except.ok a)
    (hdiff : p.amount ≠ a ∨ p.currency ≠ cur ∨ p.merchantID ≠ mer) :
    (handleCreate st [id, amtStr, cur, mer] now).2 =
      Except.error (ProcError.errCreateConflict id) ∧
    storeGet (handleCreate st [id, amtStr, cur, mer] now).1 id =
      some (p.SetFailed "create conflict" now) ∧
    (p.SetFailed "create conflict" now).state = "FAILED" ∧
    (p.SetFailed "create conflict" now).history =
      p.history ++ [⟨now, p.state, "FAILED", "FAIL", "create conflict"⟩] ∧
    handleStatus (handleCreate st [id, amtStr, cur, mer] now).1 [id] =
      Except.ok ("Payment " ++ id ++ ": state=" ++ "FAILED" ++ " amount=" ++
        FormatRat (some p.amount) ++ " currency=" ++ p.currency ++
        " merchant=" ++ p.merchantID) := by
  subst hid
  have hneq : p.Equals (NewPayment p.id a cur mer now) = false := by
    simp only [Payment.Equals, NewPayment]
    rcases hdiff with h | h | h <;> simp [h]
  have hcalc : handleCreate st [p.id, amtStr, cur, mer] now =
      (storeSave st (p.SetFailed "create conflict" now),
       Except.error (ProcError.errCreateConflict p.id)) := by
    simp [handleCreate, hget, hamt, hcur, hmer, hneq]
  have hg : storeGet (storeSave st (p.SetFailed "create conflict" now)) p.id =
      some (p.SetFailed "create conflict" now) :=
    storeGet_storeSave_self st (p.SetFailed "create conflict" now)
  refine ⟨by rw [hcalc], ?_, by simp [Payment.SetFailed], by simp [Payment.SetFailed], ?_⟩
  · rw [hcalc]
    exact hg
  · rw [hcalc]
    simp only [handleStatus, hg]
    rfl

/-- The INITIATED payment stored by `CREATE P1 100.00 USD M1` at time 0. -/
def c7Payment : Payment := NewPayment "P1" (mkRat 100 1) "USD" "M1" 0

/-- C7 witness: `CREATE P1 200.00 USD M1` against the stored
`P1 100.00 USD M1`. -/
theorem claim_C7_witness :
    (handleCreate [("P1", c7Payment)] ["P1", "200.00", "USD", "M1"] 3).2 =
      Except.error (ProcError.errCreateConflict "P1") ∧
    storeGet (handleCreate [("P1", c7Payment)] ["P1", "200.00", "USD", "M1"] 3).1
        "P1" = some (c7Payment.SetFailed "create conflict" 3) ∧
    (c7Payment.SetFailed "create conflict" 3).state = "FAILED" ∧
    (c7Payment.SetFailed "create conflict" 3).history =
      c7Payment.history ++ [⟨3, c7Payment.state, "FAILED", "FAIL", "create conflict"⟩] ∧
    handleStatus (handleCreate [("P1", c7Payment)] ["P1", "200.00", "USD", "M1"] 3).1
        ["P1"] =
      Except.ok ("Payment " ++ "P1" ++ ": state=" ++ "FAILED" ++ " amount=" ++
        FormatRat (some c7Payment.amount) ++ " currency=" ++ c7Payment.currency ++
        " merchant=" ++ c7Payment.merchantID) :=
  claim_C7 [("P1", c7Payment)] "P1" "200.00" "USD" "M1" c7Payment (mkRat 200 1) 3
    (by decide) (by decide) (by decide) (by decide) (by decide) (by decide)
    (Or.inl (by decide))

/-- The store update performed by one SETTLE command. -/
def settleStep (id : String) (now : Nat) (st : Store) : Store :=
  (handleSettle st [id] now).1

/-- C8: SETTLE on a SETTLED payment is idempotent — it succeeds and any
number of repetitions leave the store (hence state and history) unchanged;
from CAPTURED it succeeds and settles; from every other state it fails with
InvalidTransition and leaves the store unchanged. -/
theorem claim_C8 (st : Store) (id : String) (p : Payment) (now : Nat)
    (hget : storeGet st id = some p) (hid : p.id = id) :
    (p.state = "SETTLED" →
      (handleSettle st [id] now).2 =
        Except.ok ("Payment " ++ id ++ " already settled (idempotent)") ∧
      ∀ n : Nat, (settleStep id now)^[n] st = st) ∧
    (p.state = "CAPTURED" →
      (handleSettle st [id] now).2 = Except.ok ("Payment " ++ id ++ " settled") ∧
      (storeGet (handleSettle st [id] now).1 id).map Payment.state =
        some "SETTLED") ∧
    (p.state ≠ "SETTLED" → p.state ≠ "CAPTURED" →
      handleSettle st [id] now =
        (st, Except.error (ProcError.errInvalidTransition ⟨p.state, "SETTLED"⟩))) := by
  subst hid
  refine ⟨fun hs => ?_, fun hs => ?_, fun hs hc => ?_⟩
  · have hfix : settleStep p.id now st = st := by
      simp [settleStep, handleSettle, hget, hs]
    refine ⟨?_, fun n => Function.iterate_fixed hfix n⟩
    simp [handleSettle, hget, hs]
  · have hval : ValidateTransition "CAPTURED" "SETTLED" = Except.ok () := by decide
    have hcalc : handleSettle st [p.id] now =
        (storeSave st
          { p with
              state := "SETTLED"
              updatedAt := now
              history := p.history ++ [⟨now, p.state, "SETTLED", "SETTLE", "Payment settled"⟩] },
         Except.ok ("Payment " ++ p.id ++ " settled")) := by
      simp [handleSettle, hget, hs, Payment.TransitionTo, hval]
    rw [hcalc]
    refine ⟨rfl, ?_⟩
    rw [storeGet_storeSave_self]
    rfl
  · have hfalse : CanTransition p.state "SETTLED" = false := by
      rcases hres : CanTransition p.state "SETTLED" with _ | _
      · rfl
      · rcases (canTransition_to_settled p.state).mp hres with h | h
        · exact absurd h hc
        · exact absurd h hs
    have hval : ValidateTransition p.state "SETTLED" =
        Except.error ⟨p.state, "SETTLED"⟩ := by
      unfold ValidateTransition
      rw [hfalse]
      simp
    simp [handleSettle, hget, hs, Payment.TransitionTo, hval]

/-- A payment literal in SETTLED used by the C8 witness. -/
def c8Settled : Payment :=
  { id := "P1", amount := mkRat 100 1, currency := "USD", merchantID := "M1",
    state := "SETTLED", voidReason := "", history := [], createdAt := 0,
    updatedAt := 0 }

/-- A payment literal in INITIATED used by the C8 witness. -/
def c8Initiated : Payment :=
  { id := "P2", amount := mkRat 100 1, currency := "USD", merchantID := "M1",
    state := "INITIATED", voidReason := "", history := [], createdAt := 0,
    updatedAt := 0 }

/-- C8 witness: repeated SETTLE on a SETTLED payment, and SETTLE rejected
from INITIATED. -/
theorem claim_C8_witness :
    ((handleSettle [("P1", c8Settled)] ["P1"] 7).2 =
      Except.ok ("Payment " ++ "P1" ++ " already settled (idempotent)") ∧
      ∀ n : Nat, (settleStep "P1" 7)^[n] [("P1", c8Settled)] = [("P1", c8Settled)]) ∧
    handleSettle [("P2", c8Initiated)] ["P2"] 7 =
      ([("P2", c8Initiated)],
       Except.error (ProcError.errInvalidTransition ⟨"INITIATED", "SETTLED"⟩)) :=
  ⟨(claim_C8 [("P1", c8Settled)] "P1" c8Settled 7 (by decide) (by decide)).1
      (by decide),
   (claim_C8 [("P2", c8Initiated)] "P2" c8Initiated 7 (by decide) (by decide)).2.2
      (by decide) (by decide)⟩

/-- The store holding P001 in AUTHORIZED: `CREATE P001 100.00 USD M001`
followed by `AUTHORIZE P001` with no threshold. -/
def c1Store : Store :=
  (handleAuthorize none (handleCreate [] ["P001", "100.00", "USD", "M001"] 0).1
    ["P001"] 1).1

/-- C1: what the code actually does at the claim's failing input. With
P001 stored in AUTHORIZED, a CREATE with identical attributes succeeds
with the idempotent confirmation (the claim requires an error stating the
payment already exists in that state), and a CREATE with a different
amount mutates the stored record to FAILED (the claim requires no
mutation): `handleCreate` never inspects the stored state. -/
theorem claim_C1_code_behavior :
    (storeGet c1Store "P001").map Payment.state = some "AUTHORIZED" ∧
    (handleCreate c1Store ["P001", "100.00", "USD", "M001"] 2).2 =
      Except.ok ("Payment " ++ "P001" ++ " already exists (idempotent)") ∧
    (handleCreate c1Store ["P001", "100.00", "USD", "M001"] 2).1 = c1Store ∧
    (storeGet (handleCreate c1Store ["P001", "200.00", "USD", "M001"] 2).1
        "P001").map Payment.state = some "FAILED" := by
  decide

theorem extractArgsLoop_no_hash (rest2 : List String) (req : Nat) (cmd : String) :
    ∀ (pre : List String) (k : Nat) (acc : List String),
      (∀ t ∈ pre, startsWithHash t = false) →
      extractArgsLoop (pre ++ rest2) k acc req cmd =
        extractArgsLoop rest2 (k + pre.length) (acc ++ pre) req cmd := by
  intro pre
  induction pre with
  | nil => intro k acc _; simp
  | cons t pre ih =>
      intro k acc h
      have ht : startsWithHash t = false := h t (by simp)
      have hrest : ∀ x ∈ pre, startsWithHash x = false :=
        fun x hx => h x (by simp [hx])
      rw [List.cons_append, extractArgsLoop]
      simp only [ht, Bool.false_eq_true, if_false, ite_self]
      rw [ih (k + 1) (acc ++ [t]) hrest]
      have harith : k + 1 + pre.length = k + (t :: pre).length := by
        simp
        omega
      rw [harith, List.append_assoc]
      rfl

theorem extractArgsLoop_hash (tok : String) (post : List String) (k : Nat)
    (acc : List String) (req : Nat) (cmd : String)
    (htok : startsWithHash tok = true) :
    extractArgsLoop (tok :: post) k acc req cmd =
      if req ≤ acc.length then
        (if 3 < 1 + k + 1 then Except.ok acc
         else Except.error
           ("malformed input: comment only allowed after third token (found at position "
             ++ toString (1 + k + 1) ++ ")"))
      else
        Except.error
          ("malformed input: unexpected comment marker in required argument position for "
            ++ cmd ++ " (found at position " ++ toString (1 + k + 1) ++
            ", need position 4+)") := by
  rw [extractArgsLoop]
  simp only [htok, if_true]

/-- C9: a `#`-prefixed token starts a comment exactly when all required
arguments have been consumed and at least three tokens (the command plus at
least two argument tokens) precede it, in which case the arguments are the
tokens before it and the rest is discarded; any earlier `#` token makes the
whole line fail, as does a leading `#` (an unknown command). -/
theorem claim_C9 :
    (∀ (pre post : List String) (tok : String) (req : Nat) (cmd : String),
      (∀ t ∈ pre, startsWithHash t = false) → startsWithHash tok = true →
      (extractArgs (pre ++ tok :: post) req cmd = Except.ok pre ↔
        req ≤ pre.length ∧ 2 ≤ pre.length) ∧
      (¬(req ≤ pre.length ∧ 2 ≤ pre.length) →
        ∃ m, extractArgs (pre ++ tok :: post) req cmd = Except.error m)) ∧
    Parse "LIST # comment" =
      Except.error
        "malformed input: comment only allowed after third token (found at position 2)" ∧
    Parse "# CREATE P1 10.00 USD M1" = Except.error ("unknown command: " ++ "#") ∧
    Parse "CREATE P1 10.00 USD M1 # note" =
      Except.ok ⟨"CREATE", ["P1", "10.00", "USD", "M1"]⟩ := by
  refine ⟨?_, by decide, by decide, by decide⟩
  intro pre post tok req cmd hpre htok
  unfold extractArgs
  rw [extractArgsLoop_no_hash (tok :: post) req cmd pre 0 [] hpre]
  simp only [List.nil_append]
  rw [extractArgsLoop_hash tok post (0 + pre.length) pre req cmd htok]
  by_cases h1 : req ≤ pre.length
  · by_cases h2 : 2 ≤ pre.length
    · have h3 : 3 < 1 + (0 + pre.length) + 1 := by omega
      rw [if_pos h1, if_pos h3]
      simp [h1, h2]
    · have h3 : ¬ 3 < 1 + (0 + pre.length) + 1 := by omega
      rw [if_pos h1, if_neg h3]
      constructor
      · constructor
        · intro h
          exact absurd h (by simp)
        · intro h
          exact absurd h2 (by tauto)
      · intro _
        exact ⟨_, rfl⟩
  · rw [if_neg h1]
    constructor
    · constructor
      · intro h
        exact absurd h (by simp)
      · intro h
        exact absurd h1 (by tauto)
    · intro _
      exact ⟨_, rfl⟩

/-- C9 witness: the characterization applied to the argument tokens of
`VOID P1001 FRAUD # suspicious` (comment accepted, arguments kept) and of
`AUTHORIZE P1001 # retry` (comment position too early, line rejected). -/
theorem claim_C9_witness :
    (extractArgs (["P1001", "FRAUD"] ++ "#" :: ["suspicious"]) 1 "VOID" =
        Except.ok ["P1001", "FRAUD"] ↔
      1 ≤ (["P1001", "FRAUD"] : List String).length ∧
        2 ≤ (["P1001", "FRAUD"] : List String).length) ∧
    (¬(1 ≤ (["P1001"] : List String).length ∧
        2 ≤ (["P1001"] : List String).length) →
      ∃ m, extractArgs (["P1001"] ++ "#" :: ["retry"]) 1 "AUTHORIZE" =
        Except.error m) :=
  ⟨(claim_C9.1 ["P1001", "FRAUD"] ["suspicious"] "#" 1 "VOID"
      (by decide) (by decide)).1,
   (claim_C9.1 ["P1001"] ["retry"] "#" 1 "AUTHORIZE"
      (by decide) (by decide)).2⟩

end PaymentFlow

